import Mathlib

/-!
Shallow embedding of the rule-evaluation engine of `mysqltuner.py`.

Python strings are modelled as Lean `String` (a list of characters); Python
whitespace and word characters are restricted to their ASCII fragments, which
covers every character the rule grammar and the claims mention.  Python floats
are modelled as exact decimal fractions `num / 10 ^ exp`; every float the
engine produces on the claims is the image of a small integer or short decimal
string, on which the model agrees exactly with IEEE double semantics.
Fallible Python code (`eval`, regex matching) is modelled with `Option`.
-/

/-- ASCII fragment of Python str.strip / regex whitespace: space, tab,
newline, carriage return, vertical tab, form feed. -/
def pySpace (c : Char) : Bool :=
  c == ' ' || c == '\t' || c == '\n' || c == '\r' || c == '\x0b' || c == '\x0c'

/-- Python `s.lstrip()` on character lists. -/
def lstripChars (l : List Char) : List Char := l.dropWhile pySpace

/-- Python `s.strip()` on character lists. -/
def trimChars (l : List Char) : List Char :=
  ((l.dropWhile pySpace).reverse.dropWhile pySpace).reverse

/-- Python `s.strip()` on strings. -/
def pyStrip (s : String) : String := String.mk (trimChars s.data)

/-- ASCII lowercasing, Python `s.lower()` on the ASCII fragment. -/
def lowerChar (c : Char) : Char := c.toLower

/-- Python `s.lower()`. -/
def lowerAscii (s : String) : String := String.mk (s.data.map lowerChar)

/-- Substring containment on character lists, Python `needle in haystack`. -/
def hasSub (needle : List Char) : List Char → Bool
  | [] => needle.isEmpty
  | c :: rest => needle.isPrefixOf (c :: rest) || hasSub needle rest

/-- Python `needle in haystack` on strings. -/
def hasSubstr (needle haystack : String) : Bool := hasSub needle.data haystack.data

/-- Exact decimal fraction `num / 10 ^ exp`: the model of a Python float.
Every float value the engine produces on the claims is such a fraction. -/
structure Dec where
  num : Int
  exp : Nat
deriving DecidableEq, Repr

/-- Strip common factors of 10, so that equal values get equal
representations (fuel is the exponent). -/
def decNorm : Int → Nat → Dec
  | n, 0 => ⟨n, 0⟩
  | n, e + 1 => if n % 10 = 0 then decNorm (n / 10) e else ⟨n, e + 1⟩

/-- Embed an integer (`float(n)`, exact for the magnitudes in play). -/
def Dec.ofInt (n : Int) : Dec := ⟨n, 0⟩

/-- Value comparison by cross multiplication. -/
def Dec.lt (a b : Dec) : Bool := a.num * (10 : Int) ^ b.exp < b.num * (10 : Int) ^ a.exp

/-- Value equality by cross multiplication. -/
def Dec.veq (a b : Dec) : Bool := a.num * (10 : Int) ^ b.exp = b.num * (10 : Int) ^ a.exp

/-- Value order by cross multiplication. -/
def Dec.le (a b : Dec) : Bool := a.num * (10 : Int) ^ b.exp ≤ b.num * (10 : Int) ^ a.exp

/-- A Python scalar value as produced by the engine: int, float (exact
decimal model), string, or bool. -/
inductive Value where
  | vint (n : Int)
  | vfloat (d : Dec)
  | vstr (s : String)
  | vbool (b : Bool)
deriving DecidableEq, Repr

/-- Python truthiness `bool(x)` on modelled values. -/
def pyTruthy : Value → Bool
  | .vint n => n != 0
  | .vfloat d => d.num != 0
  | .vstr s => s != ""
  | .vbool b => b

/-- Drop a single trailing newline: the regex anchor `$` in `re.match`
matches at the end of the string or just before a final newline. -/
def stripFinalNewline (l : List Char) : List Char :=
  if l.getLast? = some '\n' then l.dropLast else l

/-- Matcher for the body of the pattern
`-?\d+\.?\d*(e[+-]?\d+)?` (case-insensitive `e`), anchored on both sides. -/
def numericCore (l : List Char) : Bool :=
  let l1 := match l with
    | '-' :: t => t
    | _ => l
  match l1 with
  | [] => false
  | c :: _ =>
    if c.isDigit then
      let r1 := l1.dropWhile Char.isDigit
      let r2 := match r1 with
        | '.' :: t => t.dropWhile Char.isDigit
        | _ => r1
      match r2 with
      | [] => true
      | e :: t =>
        if e == 'e' || e == 'E' then
          let t1 := match t with
            | '+' :: u => u
            | '-' :: u => u
            | _ => t
          match t1 with
          | [] => false
          | d :: _ => d.isDigit && (t1.dropWhile Char.isDigit).isEmpty
        else false
    else false

/-- `is_numeric_string` from the source:
`re.match(r"^-?\d+\.?\d*(e[+-]?\d+)?$", str(value), flags=re.IGNORECASE)`. -/
def is_numeric_string (s : String) : Bool :=
  numericCore (stripFinalNewline s.data)

/-- Decimal digit run to a natural number. -/
def digitsToNat (l : List Char) : Nat :=
  l.foldl (fun a c => a * 10 + (c.toNat - 48)) 0

/-- Exact value of a numeric string (Python `float(value)` for strings
accepted by `is_numeric_string`; junk value 0 elsewhere). -/
def decOfNumStr (s : String) : Dec :=
  let l := stripFinalNewline s.data
  let neg : Bool := match l with
    | '-' :: _ => true
    | _ => false
  let l1 := match l with
    | '-' :: t => t
    | _ => l
  let ds := l1.takeWhile Char.isDigit
  let r1 := l1.dropWhile Char.isDigit
  let fs := match r1 with
    | '.' :: t => t.takeWhile Char.isDigit
    | _ => []
  let r2 := match r1 with
    | '.' :: t => t.dropWhile Char.isDigit
    | _ => r1
  let e : Int := match r2 with
    | 'e' :: '+' :: u => (digitsToNat (u.takeWhile Char.isDigit) : Int)
    | 'E' :: '+' :: u => (digitsToNat (u.takeWhile Char.isDigit) : Int)
    | 'e' :: '-' :: u => -(digitsToNat (u.takeWhile Char.isDigit) : Int)
    | 'E' :: '-' :: u => -(digitsToNat (u.takeWhile Char.isDigit) : Int)
    | 'e' :: u => (digitsToNat (u.takeWhile Char.isDigit) : Int)
    | 'E' :: u => (digitsToNat (u.takeWhile Char.isDigit) : Int)
    | _ => 0
  let num0 : Int := (digitsToNat ds : Int) * (10 : Int) ^ fs.length + (digitsToNat fs : Int)
  let num1 : Int := if e ≥ 0 then num0 * (10 : Int) ^ e.toNat else num0
  let exp1 : Nat := if e ≥ 0 then fs.length else fs.length + (-e).toNat
  decNorm (if neg then -num1 else num1) exp1

/-- Round `x / den` (with `den > 0`) to the nearest integer, ties to even:
the rounding used by Python float formatting, exact on the decimal-exact
fragment. -/
def roundHalfEvenQuot (x den : Int) : Int :=
  let f : Int := x / den - (if x % den < 0 then 1 else 0)
  let r : Int := x - f * den
  if 2 * r < den then f
  else if 2 * r > den then f + 1
  else if f % 2 = 0 then f else f + 1

/-- Python `float(f"{x:.2f}")` on the decimal float model. -/
def roundHalfEven2 (d : Dec) : Dec :=
  decNorm (roundHalfEvenQuot (d.num * 100) ((10 : Int) ^ d.exp)) 2

/-- Left-pad a numeral with zeros to width `k`. -/
def padZeros (k : Nat) (s : String) : String :=
  String.mk (List.replicate (k - s.length) '0') ++ s

/-- Python `str(x)` for a float modelled by `d`: shortest decimal rendering
with at least one fractional digit.  Faithful for floats whose value is an
exact short decimal (all floats the engine produces on the claims). -/
def floatRepr (d : Dec) : String :=
  let d := decNorm d.num d.exp
  let sign := if d.num < 0 then "-" else ""
  let n := d.num.natAbs
  if d.exp = 0 then sign ++ toString n ++ ".0"
  else sign ++ toString (n / 10 ^ d.exp) ++ "." ++ padZeros d.exp (toString (n % 10 ^ d.exp))

/-- Python `str(value)` on modelled values (string formatting in f-strings). -/
def pyStr : Value → String
  | .vint n => toString n
  | .vfloat d => floatRepr d
  | .vstr s => s
  | .vbool b => if b then "True" else "False"

/-- `round2_if_numeric(value, expr_text)` from the source: numbers are put
through `float(f"{float(value):.2f}")`; strings are rounded the same way only
when the expression text does not contain "version" (case-insensitively) and
the string passes `is_numeric_string`; everything else passes through.
Python bools are ints (`isinstance(True, int)`), hence the `vbool` case. -/
def round2_if_numeric (value : Value) (expr_text : String) : Value :=
  match value with
  | .vint n => .vfloat (roundHalfEven2 (Dec.ofInt n))
  | .vfloat d => .vfloat (roundHalfEven2 d)
  | .vbool b => .vfloat (roundHalfEven2 (Dec.ofInt (if b then 1 else 0)))
  | .vstr s =>
    if ¬ hasSubstr "version" (lowerAscii expr_text) ∧ is_numeric_string s then
      .vfloat (roundHalfEven2 (decOfNumStr s))
    else .vstr s

/-! ## Substitution engine (`substitute_expr_variables`)

The source applies `re.sub(r"\b([A-Za-z_][A-Za-z0-9_]*)\b", repl, expr)`:
the scanner walks the text left to right; a match is a maximal run of word
characters that starts with a letter or underscore (a run led by a digit can
never match, because no word boundary occurs inside a word-character run).
The model below scans the text accumulating the current word-character run
and rewrites each complete run through the replacement function. -/

/-- Regex word character `[A-Za-z0-9_]` (ASCII fragment of `\w`). -/
def wordChar (c : Char) : Bool := c.isAlpha || c.isDigit || c == '_'

/-- First character of an identifier, `[A-Za-z_]`. -/
def identStart (c : Char) : Bool := c.isAlpha || c == '_'

/-- A single-quote character, kept out of string literals. -/
def squo : String := "\x27"

/-- Python `repr` of a string, for the escape-free printable strings the
rule files contain: quoted with single quotes, or double quotes when the
text contains a single quote but no double quote; backslashes, quotes and
the common control characters are escaped. -/
def pyRepr (s : String) : String :=
  let useDouble := s.data.contains '\x27' && !s.data.contains '"'
  let q : Char := if useDouble then '"' else '\x27'
  let esc : Char → String := fun c =>
    if c = '\\' then "\\\\"
    else if c = q then "\\" ++ String.mk [q]
    else if c = '\n' then "\\n"
    else if c = '\r' then "\\r"
    else if c = '\t' then "\\t"
    else String.mk [c]
  String.mk [q] ++ String.join (s.data.map esc) ++ String.mk [q]

/-- Association-list lookup standing in for the Python dict `variables`. -/
def lookupVar (vars : List (String × Value)) (w : String) : Option Value :=
  (vars.find? (fun p => p.1 == w)).map (fun p => p.2)

/-- The replacement function `repl` from the source: a matched identifier
that is a key of `variables` becomes `str(value)` for ints and floats
(Python bools being ints), the bare text of a numeric string, and `repr`
of any other string; other identifiers stay as they are. -/
def renderIdent (vars : List (String × Value)) (run : List Char) : List Char :=
  match lookupVar vars (String.mk run) with
  | some (.vint n) => (toString n).data
  | some (.vfloat d) => (floatRepr d).data
  | some (.vbool b) => (if b then "True" else "False").data
  | some (.vstr s) => if is_numeric_string s then s.data else (pyRepr s).data
  | none => run

/-- Rewrite one complete word-character run (`acc` holds it reversed):
identifier-led runs go through the replacement, digit-led runs can never
match the pattern and pass through. -/
def flushRun (vars : List (String × Value)) (acc : List Char) : List Char :=
  match acc.reverse with
  | [] => []
  | c :: rest => if identStart c then renderIdent vars (c :: rest) else c :: rest

/-- Scanner for the word-boundary substitution; `acc` is the reversed
word-character run ending just before the current position. -/
def subGo (vars : List (String × Value)) : List Char → List Char → List Char
  | acc, [] => flushRun vars acc
  | acc, c :: cs =>
    if wordChar c then subGo vars (c :: acc) cs
    else flushRun vars acc ++ c :: subGo vars [] cs

/-- `substitute_expr_variables(expr, variables)` from the source. -/
def substitute_expr_variables (expr : String) (vars : List (String × Value)) : String :=
  String.mk (subGo vars [] expr.data)

/-! ## Perl-like `substr` helper -/

/-- Normalize one Python slice index against a length: negative indices
count from the end, then the index is clamped into `[0, len]`. -/
def normIdx (len : Nat) (i : Int) : Nat :=
  if i < 0 then (i + len).toNat else min i.toNat len

/-- Python `text[start:stop]` (step 1); `none` means an omitted bound. -/
def pySlice (s : String) (start : Int) (stop : Option Int) : String :=
  let l := s.data
  let a := normIdx l.length start
  let b := match stop with
    | none => l.length
    | some j => normIdx l.length j
  String.mk ((l.take b).drop a)

/-- `substr(s, start, length=None)` from the source: `text[start:]` when the
length is omitted, otherwise `text[start:start+length]`. -/
def substr (s : String) (start : Int) (length : Option Int) : String :=
  match length with
  | none => pySlice s start none
  | some len => pySlice s start (some (start + len))

/-! ## Condition compiler (`build_condition_expression`) -/

/-- Lazy split for `/(.+?)/([a-zA-Z]*)$`: the group is the shortest
newline-free nonempty prefix followed by a slash and letters-only flags
running to the end of the text (`core` holds the group reversed). -/
def tildeSplit (core : List Char) : List Char → Option (List Char × List Char)
  | [] => none
  | '/' :: rest =>
    if core ≠ [] && rest.all (fun c => c.isAlpha) then some (core.reverse, rest)
    else tildeSplit ('/' :: core) rest
  | c :: rest => if c = '\n' then none else tildeSplit (c :: core) rest

/-- `re.match(r"<c1><c2>\s*/(.+?)/([a-zA-Z]*)$", text)` for the two
operator heads `=~` and `!~`: returns the pattern and flag groups. -/
def tildeMatch (c1 c2 : Char) (text : List Char) : Option (List Char × List Char) :=
  match text with
  | a :: b :: rest =>
    if a = c1 ∧ b = c2 then
      match rest.dropWhile pySpace with
      | '/' :: inner => tildeSplit [] inner
      | _ => none
    else none
  | _ => none

/-- `" | ".join(pyflags) if pyflags else "0"` where `pyflags` holds `re.I`
exactly when the flags contain `i` case-insensitively. -/
def flagsExpr (flags : List Char) : String :=
  if flags.contains 'i' || flags.contains 'I' then "re.I" else "0"

/-- `build_condition_expression(comp_text, value_alias)` from the source:
legacy comparison syntax compiled to a Python expression over the alias. -/
def build_condition_expression (comp_text : String) (value_alias : String) : String :=
  let text := pyStrip comp_text
  match tildeMatch '=' '~' text.data with
  | some (pat, flags) =>
    "re.search(r" ++ squo ++ String.mk pat ++ squo ++ ", str(" ++ value_alias ++ "), "
      ++ flagsExpr flags ++ ") is not None"
  | none =>
  match tildeMatch '!' '~' text.data with
  | some (pat, flags) =>
    "re.search(r" ++ squo ++ String.mk pat ++ squo ++ ", str(" ++ value_alias ++ "), "
      ++ flagsExpr flags ++ ") is None"
  | none =>
  if "eq ".data.isPrefixOf text.data then
    value_alias ++ " == " ++ pyStrip (String.mk (text.data.drop 3))
  else if "ne ".data.isPrefixOf text.data then
    value_alias ++ " != " ++ pyStrip (String.mk (text.data.drop 3))
  else if ".".data.isPrefixOf text.data then
    "str(" ++ value_alias ++ ")" ++ text
  else
    match text.data with
    | c :: _ =>
      if c = '<' || c = '>' || c = '!' || c = '=' then value_alias ++ " " ++ text
      else text
    | [] => text

/-! ## Rule-line splitting and category headers -/

/-- Python `line.split("|||")` (leftmost, non-overlapping); `acc` holds the
current field reversed. -/
def splitBars : List Char → List Char → List (List Char)
  | acc, '|' :: '|' :: '|' :: rest => acc.reverse :: splitBars [] rest
  | acc, c :: rest => splitBars (c :: acc) rest
  | acc, [] => [acc.reverse]

/-- Python `"|||" in raw`. -/
def hasTripleBar : List Char → Bool
  | '|' :: '|' :: '|' :: _ => true
  | _ :: rest => hasTripleBar rest
  | [] => false

/-- The deterministic head of the category regex
`^\s*#\s*Category\s*:\s*(.+?)\s*$` (case-insensitive): whitespace, `#`,
whitespace, the word `category` in any case, whitespace, `:`.  Returns the
remaining text after the colon, in which the group is then searched. -/
def catRest (l : List Char) : Option (List Char) :=
  match l.dropWhile pySpace with
  | '#' :: t1 =>
    if (((t1.dropWhile pySpace).take 8).map lowerChar) = "category".data then
      match ((t1.dropWhile pySpace).drop 8).dropWhile pySpace with
      | ':' :: r => some r
      | _ => none
    else none
  | _ => none

/-- The group `(.+?)` of the category regex against the remainder `r`, under
the trailing `\s*$`: with a non-whitespace character present the group is
`r` trimmed of surrounding whitespace, provided it contains no newline (`.`
does not cross newlines); when `r` is all whitespace, greedy/lazy
backtracking makes the group the last non-newline character of `r`. -/
def catGroup (r : List Char) : Option (List Char) :=
  if trimChars r ≠ [] then
    if (trimChars r).contains '\n' then none else some (trimChars r)
  else
    match r.reverse.dropWhile (fun c => c == '\n') with
    | [] => none
    | c :: _ => some [c]

/-- `re.match(r"^\s*#\s*Category\s*:\s*(.+?)\s*$", raw, flags=re.IGNORECASE)`
from the source, returning the captured group. -/
def catMatch (l : List Char) : Option (List Char) :=
  (catRest l).bind catGroup

/-- Modelled from the claim wording (C10), for comparison with `catMatch`:
optional whitespace, `#`, optional whitespace, the word `Category` in any
letter case, optional whitespace, `:`, and a non-empty name, the extracted
name being the rest trimmed of surrounding whitespace. -/
def specCatHeader (l : List Char) : Option (List Char) :=
  (catRest l).bind (fun r => if trimChars r ≠ [] then some (trimChars r) else none)

/-! ## Rule processor (`evaluate_and_print`)

Output is modelled as the ordered list of strings passed to `print`.  The
two uses of the ambient Python evaluator are oracles: `exprEval` for
`eval(parsed_expr, build_safe_eval_env({}))` and `condEval` for
`eval(build_condition_expression(...), build_safe_eval_env({"re": re, "v":
value, "_": value}))`, where the second argument is the derived value bound
to both aliases; `none` models an exception. -/

structure St where
  out : List String
  recs : List (String × String)
  cat : String
deriving DecidableEq, Repr

/-- The body of the loop of `evaluate_and_print` for a well-formed rule
line, after `parse_config_line` has split and stripped the four fields. -/
def ruleStep (exprEval : String → Option Value)
    (condEval : String → Value → Option Value)
    (vars : List (String × Value)) (output_mode : String) (debug : Bool)
    (st : St) (label comp expr output_text : String) : St :=
  let dbg1 := if debug then ["expr starts as " ++ expr] else []
  let parsed := substitute_expr_variables expr vars
  let dbg2 := if debug then ["expr after parsing is " ++ parsed] else []
  let value := (exprEval parsed).getD (.vstr parsed)
  let dbg3 := if debug then ["expr evals to " ++ squo ++ pyStr value ++ squo] else []
  let displayed :=
    if output_mode = "csv" then label ++ "," ++ pyStr value
    else label ++ ": " ++ pyStr (round2_if_numeric value expr)
  let comp_text := pyStrip comp
  let condition_ok :=
    if comp_text = "" then false
    else match condEval (build_condition_expression comp_text "v") value with
      | some b => pyTruthy b
      | none => false
  let dbg4 := if debug ∧ condition_ok then ["\t" ++ label ++ " matches " ++ comp_text] else []
  { out := st.out ++ dbg1 ++ dbg2 ++ dbg3 ++ [displayed] ++ dbg4,
    recs := st.recs ++ (if condition_ok then [(displayed, output_text)] else []),
    cat := st.cat }

/-- One iteration of the line loop of `evaluate_and_print`. -/
def processLine (exprEval : String → Option Value)
    (condEval : String → Value → Option Value)
    (vars : List (String × Value)) (output_mode : String) (debug : Bool)
    (st : St) (raw : String) : St :=
  if (raw.data.dropWhile pySpace).isEmpty then st
  else if (raw.data.dropWhile pySpace).head? = some '#' then
    if hasTripleBar raw.data then st
    else
      match catMatch raw.data with
      | some nameChars =>
        let name := String.mk nameChars
        if name ≠ "" ∧ name ≠ st.cat then
          { st with
            cat := name,
            out := st.out ++
              [if output_mode = "csv" then "Category," ++ name else "\n" ++ name] }
        else st
      | none => st
  else
    let parts := (splitBars [] raw.data).map String.mk
    if parts.length = 4 then
      ruleStep exprEval condEval vars output_mode debug st
        (pyStrip (parts.getD 0 "")) (pyStrip (parts.getD 1 ""))
        (pyStrip (parts.getD 2 "")) (pyStrip (parts.getD 3 ""))
    else st

/-- The line loop of `evaluate_and_print`. -/
def runLines (exprEval : String → Option Value)
    (condEval : String → Value → Option Value)
    (vars : List (String × Value)) (output_mode : String) (debug : Bool) :
    St → List String → St
  | st, [] => st
  | st, l :: ls =>
    runLines exprEval condEval vars output_mode debug
      (processLine exprEval condEval vars output_mode debug st l) ls

/-- `evaluate_and_print(lines, variables, output_mode, debug,
show_recommendations)` from the source, as the ordered list of printed
strings. -/
def evaluate_and_print (exprEval : String → Option Value)
    (condEval : String → Value → Option Value)
    (lines : List String) (vars : List (String × Value))
    (output_mode : String) (debug : Bool) (show_recommendations : Bool) : List String :=
  let st := runLines exprEval condEval vars output_mode debug ⟨[], [], ""⟩ lines
  st.out ++
    (if show_recommendations ∧ st.recs ≠ [] then
      "\n\nRECOMMENDATIONS:" ::
        (if output_mode = "csv" then
          st.recs.flatMap (fun p => [p.1, "Recommendation," ++ p.2])
        else
          st.recs.flatMap (fun p => ["\x1b[1m" ++ p.1 ++ "\x1b[0m", p.2, ""]))
    else [])

/-! ## A concrete fragment of the Python expression evaluator

The source hands both expression strings to Python `eval`.  The fragment
below models `eval` on the mini-language the concrete claims exercise:
integer literals (with Python 3 rejection of leading zeros), decimal float
literals, name lookup in the explicit environment, and a single comparison
between two atoms.  Wherever the fragment returns `some v`, Python `eval`
returns the same value; everything outside the fragment is `none`. -/

inductive Tok where
  | tnum (v : Value)
  | tname (s : String)
  | tcmp (s : String)
deriving DecidableEq, Repr

/-- Lex one number: digits, optionally a point and more digits.  Python 3
rejects a multi-digit integer literal with a leading zero (`007` is a
syntax error) but allows leading zeros in float literals; a number directly
followed by a word character is outside the fragment. -/
def lexNum (l : List Char) : Option (Tok × List Char) :=
  let ds := l.takeWhile Char.isDigit
  let r1 := l.dropWhile Char.isDigit
  match r1 with
  | '.' :: t =>
    let fs := t.takeWhile Char.isDigit
    let r2 := t.dropWhile Char.isDigit
    match r2 with
    | c :: _ => if wordChar c ∨ c = '.' then none
        else some (.tnum (.vfloat (decNorm ((digitsToNat ds : Int) * (10 : Int) ^ fs.length + (digitsToNat fs : Int)) fs.length)), r2)
    | [] => some (.tnum (.vfloat (decNorm ((digitsToNat ds : Int) * (10 : Int) ^ fs.length + (digitsToNat fs : Int)) fs.length)), r2)
  | c :: _ =>
    if wordChar c then none
    else if ds.length > 1 ∧ ds.head? = some '0' then none
    else some (.tnum (.vint (digitsToNat ds : Int)), r1)
  | [] =>
    if ds.length > 1 ∧ ds.head? = some '0' then none
    else some (.tnum (.vint (digitsToNat ds : Int)), r1)

/-- Tokenizer for the fragment (fuel-driven, one char consumed per step at
least). -/
def lexFrag : Nat → List Char → Option (List Tok)
  | _, [] => some []
  | 0, _ => none
  | fuel + 1, l =>
    match l with
    | c :: cs =>
      if c = ' ' ∨ c = '\t' then lexFrag fuel cs
      else if c.isDigit then
        match lexNum l with
        | some (t, rest) => (lexFrag fuel rest).map (fun ts => t :: ts)
        | none => none
      else if identStart c then
        let run := l.takeWhile wordChar
        (lexFrag fuel (l.dropWhile wordChar)).map (fun ts => .tname (String.mk run) :: ts)
      else if c = '<' ∨ c = '>' then
        match cs with
        | '=' :: rest => (lexFrag fuel rest).map (fun ts => .tcmp (String.mk [c, '=']) :: ts)
        | _ => (lexFrag fuel cs).map (fun ts => .tcmp (String.mk [c]) :: ts)
      else if c = '=' ∨ c = '!' then
        match cs with
        | '=' :: rest => (lexFrag fuel rest).map (fun ts => .tcmp (String.mk [c, '=']) :: ts)
        | _ => none
      else none
    | [] => some []

/-- Numeric view of a value (Python bools are ints); `none` for strings. -/
def numView : Value → Option Dec
  | .vint n => some (Dec.ofInt n)
  | .vfloat d => some d
  | .vbool b => some (Dec.ofInt (if b then 1 else 0))
  | .vstr _ => none

/-- Python `==` between modelled values: numbers compare by value across
int/float/bool, strings compare to strings, and a string never equals a
number. -/
def pyEq (a b : Value) : Bool :=
  match numView a, numView b with
  | some x, some y => x.veq y
  | none, none =>
    match a, b with
    | .vstr s, .vstr t => s == t
    | _, _ => false
  | _, _ => false

/-- Python ordered comparison (`<`, `<=`, `>`, `>=`) between modelled
values: numbers by value, strings lexicographically, mixed types raise. -/
def pyOrd (opLe : Bool) (a b : Value) : Option Bool :=
  match numView a, numView b with
  | some x, some y => some (if opLe then x.le y else x.lt y)
  | none, none =>
    match a, b with
    | .vstr s, .vstr t => some (if opLe then decide (s ≤ t) else decide (s < t))
    | _, _ => none
  | _, _ => none

/-- Comparison dispatch for the fragment. -/
def pyCompare (op : String) (a b : Value) : Option Value :=
  if op = "==" then some (.vbool (pyEq a b))
  else if op = "!=" then some (.vbool (!pyEq a b))
  else if op = "<" then (pyOrd false a b).map .vbool
  else if op = "<=" then (pyOrd true a b).map .vbool
  else if op = ">" then (pyOrd false b a).map .vbool
  else if op = ">=" then (pyOrd true b a).map .vbool
  else none

/-- Atom evaluation: a literal, or a name resolved in the environment
(Python raises `NameError` on a missing name). -/
def atomVal (env : List (String × Value)) : Tok → Option Value
  | .tnum v => some v
  | .tname n => lookupVar env n
  | .tcmp _ => none

/-- Evaluate a token sequence of the fragment. -/
def evalToks (env : List (String × Value)) : List Tok → Option Value
  | [t] => atomVal env t
  | [a, .tcmp op, b] => do pyCompare op (← atomVal env a) (← atomVal env b)
  | _ => none

/-- The fragment model of Python `eval(s, env)`. -/
def pyEvalFrag (s : String) (env : List (String × Value)) : Option Value :=
  (lexFrag (s.data.length + 1) s.data).bind (evalToks env)

/-- Oracle for the derived-value evaluation (`build_safe_eval_env({})`
binds no value names, only the function library, which is outside the
fragment). -/
def exprEvalFrag (s : String) : Option Value := pyEvalFrag s []

/-- Oracle for the condition evaluation: both aliases `v` and `_` are bound
to the derived value (the `re` module is outside the fragment). -/
def condEvalFrag (s : String) (v : Value) : Option Value :=
  pyEvalFrag s [("v", v), ("_", v)]

/-! # Infrastructure lemmas -/

/-- Sanity of the evaluator fragment on the inputs the claims exercise:
Python accepts `12`, `0`, `2.5` and `v < 60`, and rejects `007` (leading
zeros in a decimal integer literal are a Python 3 syntax error). -/
theorem pyEvalFrag_sanity :
    pyEvalFrag "12" [] = some (.vint 12)
    ∧ pyEvalFrag "0" [] = some (.vint 0)
    ∧ pyEvalFrag "007" [] = none
    ∧ pyEvalFrag "2.5" [] = some (.vfloat ⟨25, 1⟩)
    ∧ pyEvalFrag "v < 60" [("v", .vint 30), ("_", .vint 30)] = some (.vbool true)
    ∧ pyEvalFrag "v < 60" [("v", .vint 70), ("_", .vint 70)] = some (.vbool false) := by
  refine ⟨by decide, by decide, by decide, by decide, by decide, by decide⟩

/-- Sanity of the condition compiler on the legacy syntax forms. -/
theorem build_condition_expression_sanity :
    build_condition_expression "< 60" "v" = "v < 60"
    ∧ build_condition_expression "eq 5" "v" = "v == 5"
    ∧ build_condition_expression "" "v" = ""
    ∧ build_condition_expression ("=~ /^5\\./" : String) "v"
        = "re.search(r" ++ squo ++ "^5\\." ++ squo ++ ", str(v), 0) is not None" := by
  refine ⟨by decide, by decide, by decide, by decide⟩

theorem flushRun_nil (vars : List (String × Value)) : flushRun vars [] = [] := rfl

theorem subGo_nil (vars : List (String × Value)) (acc : List Char) :
    subGo vars acc [] = flushRun vars acc := rfl

theorem subGo_cons (vars : List (String × Value)) (acc : List Char) (c : Char)
    (cs : List Char) :
    subGo vars acc (c :: cs)
      = if wordChar c then subGo vars (c :: acc) cs
        else flushRun vars acc ++ c :: subGo vars [] cs := rfl

theorem subGo_boundary (vars : List (String × Value)) (acc l₂ : List Char)
    (h : l₂.head?.all (fun a => !wordChar a) = true) :
    subGo vars acc l₂ = flushRun vars acc ++ subGo vars [] l₂ := by
  cases l₂ with
  | nil => rw [subGo_nil, subGo_nil, flushRun_nil, List.append_nil]
  | cons d t =>
    have hd : wordChar d = false := by simpa [Option.all] using h
    rw [subGo_cons, subGo_cons, if_neg (by simp [hd]), if_neg (by simp [hd]),
      flushRun_nil, List.nil_append]

theorem subGo_run (vars : List (String × Value)) (w : List Char) :
    ∀ (acc l₂ : List Char), (∀ c ∈ w, wordChar c = true) →
      subGo vars acc (w ++ l₂) = subGo vars (w.reverse ++ acc) l₂ := by
  induction w with
  | nil => intro acc l₂ _; simp
  | cons c w' ih =>
    intro acc l₂ h
    have hc : wordChar c = true := h c (List.mem_cons_self c w')
    rw [List.cons_append, subGo_cons, if_pos hc,
      ih (c :: acc) l₂ (fun d hd => h d (List.mem_cons_of_mem c hd))]
    simp [List.append_assoc]

theorem subGo_split (vars : List (String × Value)) :
    ∀ (l₁ : List Char) (c : Char), l₁.getLast? = some c → wordChar c = false →
      ∀ (rest acc : List Char),
        subGo vars acc (l₁ ++ rest) = subGo vars acc l₁ ++ subGo vars [] rest := by
  intro l₁
  induction l₁ with
  | nil => intro c hc _ _ _; simp at hc
  | cons a t ih =>
    intro c hc hw rest acc
    cases t with
    | nil =>
      rw [List.getLast?_singleton] at hc
      injection hc with hac
      subst hac
      rw [List.cons_append, List.nil_append, subGo_cons, if_neg (by simp [hw]),
        subGo_cons, if_neg (by simp [hw]), subGo_nil, flushRun_nil]
      simp [List.append_assoc]
    | cons b t' =>
      have hlast : (b :: t').getLast? = some c := by
        rw [← List.getLast?_cons_cons (a := a)]; exact hc
      by_cases hwa : wordChar a = true
      · rw [List.cons_append, subGo_cons, if_pos hwa, subGo_cons, if_pos hwa]
        exact ih c hlast hw rest (a :: acc)
      · have hwa' : ¬ wordChar a = true := hwa
        rw [List.cons_append, subGo_cons, if_neg hwa', subGo_cons, if_neg hwa',
          ih c hlast hw rest []]
        simp [List.append_assoc]

theorem flushRun_ident (vars : List (String × Value)) (c : Char) (w' : List Char)
    (hc : identStart c = true) :
    flushRun vars ((c :: w').reverse) = renderIdent vars (c :: w') := by
  simp [flushRun, List.reverse_reverse, hc]

theorem subGo_ident_run (vars : List (String × Value)) (c : Char) (w' l₂ : List Char)
    (hc : identStart c = true) (hw : ∀ d ∈ c :: w', wordChar d = true)
    (hl₂ : l₂.head?.all (fun a => !wordChar a) = true) :
    subGo vars [] ((c :: w') ++ l₂) = renderIdent vars (c :: w') ++ subGo vars [] l₂ := by
  rw [subGo_run vars (c :: w') [] l₂ hw]
  rw [subGo_boundary vars ((c :: w').reverse ++ []) l₂ hl₂]
  rw [List.append_nil, flushRun_ident vars c w' hc]

theorem drop_min {α : Type} (l : List α) (a n : Nat) (h : l.length ≤ n) :
    l.drop (min a n) = l.drop a := by
  rcases le_or_lt a n with h' | h'
  · rw [min_eq_left h']
  · rw [min_eq_right h'.le, List.drop_eq_nil_of_le h,
      List.drop_eq_nil_of_le (le_trans h h'.le)]

theorem runLines_cons (E : String → Option Value) (C : String → Value → Option Value)
    (vars : List (String × Value)) (mode : String) (debug : Bool) (st : St)
    (l : String) (ls : List String) :
    runLines E C vars mode debug st (l :: ls)
      = runLines E C vars mode debug (processLine E C vars mode debug st l) ls := rfl

theorem processLine_rule (E : String → Option Value) (C : String → Value → Option Value)
    (vars : List (String × Value)) (mode : String) (debug : Bool) (st : St) (raw : String)
    (h1 : (raw.data.dropWhile pySpace).isEmpty = false)
    (h2 : (raw.data.dropWhile pySpace).head? ≠ some '#')
    (h4 : ((splitBars [] raw.data).map String.mk).length = 4) :
    processLine E C vars mode debug st raw
      = ruleStep E C vars mode debug st
          (pyStrip (((splitBars [] raw.data).map String.mk).getD 0 ""))
          (pyStrip (((splitBars [] raw.data).map String.mk).getD 1 ""))
          (pyStrip (((splitBars [] raw.data).map String.mk).getD 2 ""))
          (pyStrip (((splitBars [] raw.data).map String.mk).getD 3 "")) := by
  unfold processLine
  rw [if_neg (by simp [h1]), if_neg h2]
  simp only [h4, if_true]

theorem ruleStep_spec (E : String → Option Value) (C : String → Value → Option Value)
    (vars : List (String × Value)) (mode : String) (st : St)
    (label comp expr output_text : String) :
    (ruleStep E C vars mode false st label comp expr output_text).out
        = st.out ++
          [if mode = "csv" then
            label ++ "," ++ pyStr ((E (substitute_expr_variables expr vars)).getD
              (.vstr (substitute_expr_variables expr vars)))
          else
            label ++ ": " ++ pyStr (round2_if_numeric
              ((E (substitute_expr_variables expr vars)).getD
                (.vstr (substitute_expr_variables expr vars))) expr)]
    ∧ (ruleStep E C vars mode false st label comp expr output_text).recs
        = st.recs ++
          (if (if pyStrip comp = "" then false
              else match C (build_condition_expression (pyStrip comp) "v")
                  ((E (substitute_expr_variables expr vars)).getD
                    (.vstr (substitute_expr_variables expr vars))) with
                | some b => pyTruthy b
                | none => false) = true then
            [(if mode = "csv" then
                label ++ "," ++ pyStr ((E (substitute_expr_variables expr vars)).getD
                  (.vstr (substitute_expr_variables expr vars)))
              else
                label ++ ": " ++ pyStr (round2_if_numeric
                  ((E (substitute_expr_variables expr vars)).getD
                    (.vstr (substitute_expr_variables expr vars))) expr),
              output_text)]
          else [])
    ∧ (ruleStep E C vars mode false st label comp expr output_text).cat = st.cat := by
  refine ⟨?_, ?_, ?_⟩ <;>
    simp [ruleStep]

theorem catRest_shape {l r : List Char} (h : catRest l = some r) :
    ∃ t, l.dropWhile pySpace = '#' :: t := by
  unfold catRest at h
  split at h
  · next t1 heq => exact ⟨t1, heq⟩
  · simp at h

theorem catRest_suffix {l r : List Char} (h : catRest l = some r) : r <:+ l := by
  unfold catRest at h
  split at h
  · next t1 heq =>
    split at h
    · split at h
      · next r' heq2 =>
        have heqr : r' = r := by injection h
        have A : r' <:+ ((t1.dropWhile pySpace).drop 8).dropWhile pySpace := by
          rw [heq2]; exact List.suffix_cons ':' r'
        have B : ((t1.dropWhile pySpace).drop 8).dropWhile pySpace
            <:+ (t1.dropWhile pySpace).drop 8 := List.dropWhile_suffix _
        have Cs : (t1.dropWhile pySpace).drop 8 <:+ t1.dropWhile pySpace :=
          List.drop_suffix _ _
        have D : t1.dropWhile pySpace <:+ t1 := List.dropWhile_suffix _
        have Ee : t1 <:+ '#' :: t1 := List.suffix_cons _ _
        have F : '#' :: t1 <:+ l := by rw [← heq]; exact List.dropWhile_suffix pySpace
        exact heqr ▸ A.trans (B.trans (Cs.trans (D.trans (Ee.trans F))))
      · simp at h
    · simp at h
  · simp at h

theorem trimChars_concat_space (l : List Char) (c : Char) (hc : pySpace c = true) :
    trimChars (l ++ [c]) = trimChars l := by
  unfold trimChars
  rw [List.dropWhile_append]
  by_cases he : (l.dropWhile pySpace).isEmpty
  · rw [if_pos he]
    have hnil : l.dropWhile pySpace = [] := by simpa using he
    rw [hnil]
    simp [List.dropWhile_cons, hc]
  · rw [if_neg he]
    rw [List.reverse_append]
    simp [List.dropWhile_cons, hc]

theorem mem_trimChars {a : Char} {l : List Char} (h : a ∈ trimChars l) : a ∈ l := by
  unfold trimChars at h
  rw [List.mem_reverse] at h
  have h1 : a ∈ (l.dropWhile pySpace).reverse :=
    (List.dropWhile_suffix pySpace).sublist.subset h
  rw [List.mem_reverse] at h1
  exact (List.dropWhile_suffix pySpace).sublist.subset h1

theorem catGroup_of_trim {r : List Char} (hnl : '\n' ∉ r.dropLast)
    (hne : trimChars r ≠ []) : catGroup r = some (trimChars r) := by
  unfold catGroup
  rw [if_pos hne, if_neg ?hc]
  case hc =>
    intro hcont
    have hmem : '\n' ∈ trimChars r := by simpa using hcont
    have hr : '\n' ∈ r := mem_trimChars hmem
    have hrne : r ≠ [] := by rintro rfl; simp at hr
    have hsplit := List.dropLast_append_getLast hrne
    have hr2 : '\n' ∈ r.dropLast ++ [r.getLast hrne] := by rw [hsplit]; exact hr
    have hlast : r.getLast hrne = '\n' := by
      rcases List.mem_append.mp hr2 with h | h
      · exact absurd h hnl
      · exact (List.mem_singleton.mp h).symm
    have hmem2 : '\n' ∈ trimChars r.dropLast := by
      have : trimChars r = trimChars r.dropLast := by
        conv_lhs => rw [← hsplit, hlast]
        exact trimChars_concat_space r.dropLast '\n' (by decide)
      rwa [this] at hmem
    exact hnl (mem_trimChars hmem2)

theorem suffix_dropLast_not_mem {a : Char} {r l : List Char} (h : r <:+ l)
    (hl : a ∉ l.dropLast) : a ∉ r.dropLast := by
  obtain ⟨u, rfl⟩ := h
  cases r with
  | nil => simp
  | cons c t =>
    intro hmem
    apply hl
    rw [List.dropLast_append, if_neg (by simp)]
    exact List.mem_append.mpr (Or.inr hmem)

theorem processLine_header (E : String → Option Value) (C : String → Value → Option Value)
    (vars : List (String × Value)) (mode : String) (debug : Bool) (st : St)
    (raw : String) (n : List Char)
    (hm : catMatch raw.data = some n) (hbar : hasTripleBar raw.data = false)
    (hne : String.mk n ≠ "") :
    processLine E C vars mode debug st raw
      = if String.mk n ≠ st.cat then
          { st with
            cat := String.mk n,
            out := st.out ++
              [if mode = "csv" then "Category," ++ String.mk n
               else "\n" ++ String.mk n] }
        else st := by
  obtain ⟨r, hr, _⟩ : ∃ r, catRest raw.data = some r ∧ catGroup r = some n := by
    simpa [catMatch, Option.bind_eq_some] using hm
  obtain ⟨t, ht⟩ := catRest_shape hr
  unfold processLine
  rw [ht]
  rw [if_neg (by simp), if_pos (show ('#' :: t).head? = some '#' from rfl),
    if_neg (by simp [hbar]), hm]
  show (if String.mk n ≠ "" ∧ String.mk n ≠ st.cat then
      { st with
        cat := String.mk n,
        out := st.out ++
          [if mode = "csv" then "Category," ++ String.mk n
           else "\n" ++ String.mk n] }
    else st) = _
  by_cases hc : String.mk n = st.cat
  · rw [if_neg (fun hcon => hcon.2 hc), if_neg (not_not_intro hc)]
  · rw [if_pos ⟨hne, hc⟩, if_pos hc]

/-! # Claim theorems -/

/-- C3: variable substitution is word-boundary exact.  (1) For every
variable table, every maximal identifier token — a run of word characters
led by a letter or underscore, delimited on the left by the string start or
a non-word character and on the right by the string end or a non-word
character — is rewritten through the replacement function in place, the
surrounding text being substituted independently; (2) an identifier token
that is not itself a variable name is left untouched (so a variable name
occurring as a proper substring of a longer identifier is never replaced);
(3) with table `Var1 := 5, Variable1 := 9`, substituting into `Var1*2`
yields `5*2`. -/
theorem C3_word_boundary_substitution :
    (∀ (vars : List (String × Value)) (l₁ : List Char) (c : Char) (w' l₂ : List Char),
      identStart c = true → (∀ d ∈ c :: w', wordChar d = true) →
      l₁.getLast?.all (fun a => !wordChar a) = true →
      l₂.head?.all (fun a => !wordChar a) = true →
      subGo vars [] (l₁ ++ (c :: w') ++ l₂)
        = subGo vars [] l₁ ++ renderIdent vars (c :: w') ++ subGo vars [] l₂)
    ∧ (∀ (vars : List (String × Value)) (w : List Char),
        lookupVar vars (String.mk w) = none → renderIdent vars w = w)
    ∧ substitute_expr_variables "Var1*2" [("Var1", .vint 5), ("Variable1", .vint 9)]
        = "5*2" := by
  refine ⟨?_, ?_, by decide⟩
  · intro vars l₁ c w' l₂ hc hw hb₁ hb₂
    cases hl : l₁.getLast? with
    | none =>
      have hnil : l₁ = [] := List.getLast?_eq_none_iff.mp hl
      subst hnil
      simp only [List.nil_append]
      rw [subGo_ident_run vars c w' l₂ hc hw hb₂]
      simp [subGo, flushRun_nil]
    | some a =>
      have ha : wordChar a = false := by
        rw [hl] at hb₁; simpa [Option.all] using hb₁
      rw [List.append_assoc]
      rw [subGo_split vars l₁ a hl ha ((c :: w') ++ l₂) []]
      rw [subGo_ident_run vars c w' l₂ hc hw hb₂]
      simp [List.append_assoc]
  · intro vars w h
    simp [renderIdent, h]

/-- Witness for C3: the identifier token `Var1` in `3*Var1*2`, delimited by
the non-word characters `*`, is replaced while the context is substituted
independently. -/
theorem C3_word_boundary_substitution_witness :
    subGo [("Var1", Value.vint 5), ("Variable1", Value.vint 9)] []
        ("3*".data ++ ('V' :: "ar1".data) ++ "*2".data)
      = subGo [("Var1", Value.vint 5), ("Variable1", Value.vint 9)] [] "3*".data
        ++ renderIdent [("Var1", Value.vint 5), ("Variable1", Value.vint 9)] ('V' :: "ar1".data)
        ++ subGo [("Var1", Value.vint 5), ("Variable1", Value.vint 9)] [] "*2".data :=
  C3_word_boundary_substitution.1 _ _ 'V' _ _ (by decide) (by decide) (by decide) (by decide)

/-- C4: `round2_if_numeric` rounds a string value only if it passes
`is_numeric_string` and the originating expression text does not contain
"version" case-insensitively; in particular the numeric-looking version
string `5.7.31` is displayed unrounded. -/
theorem C4_version_exception :
    (∀ (s e : String),
      hasSubstr "version" (lowerAscii e) = true ∨ is_numeric_string s = false →
      round2_if_numeric (.vstr s) e = .vstr s)
    ∧ round2_if_numeric (.vstr "5.7.31") "innodb_version" = .vstr "5.7.31" := by
  refine ⟨?_, by decide⟩
  intro s e h
  have hcond : ¬ (¬ hasSubstr "version" (lowerAscii e) = true ∧ is_numeric_string s = true) := by
    rcases h with h | h
    · exact fun hh => hh.1 h
    · exact fun hh => by rw [h] at hh; exact absurd hh.2 (by simp)
  simp only [round2_if_numeric]
  rw [if_neg hcond]

/-- Witness for C4: an expression mentioning "version" suppresses rounding
even for a string that does pass `is_numeric_string`. -/
theorem C4_version_exception_witness :
    round2_if_numeric (Value.vstr "5.70") "select version()" = Value.vstr "5.70" :=
  C4_version_exception.1 "5.70" "select version()" (Or.inl (by decide))

/-- C9 counterexample: a negative length is not the same as an omitted
length: `substr("hello", 0, -1)` is `hell`, not the to-end suffix `hello`. -/
theorem C9_counterexample :
    substr "hello" 0 none = "hello" ∧ substr "hello" 0 (some (-1)) = "hell"
    ∧ substr "hello" 0 (some (-1)) ≠ substr "hello" 0 none := by decide

/-- C9 amended: with the length argument omitted, `substr` returns the
suffix starting at the (non-negative) offset; with a negative length it
returns `text[start : start+length]` under Python slice semantics, so when
`start+length` is still negative it keeps the characters from `start` up to
`length` before the end, not the whole suffix. -/
theorem C9_amended :
    (∀ (s : String) (start : Int), 0 ≤ start →
      substr s start none = String.mk (s.data.drop start.toNat))
    ∧ (∀ (s : String) (start len : Int), 0 ≤ start → len < 0 → start + len < 0 →
      substr s start (some len)
        = String.mk ((s.data.take (start + len + s.data.length).toNat).drop start.toNat)) := by
  constructor
  · intro s start h
    simp only [substr, pySlice, normIdx]
    rw [if_neg (by omega)]
    simp only [List.take_length]
    exact congrArg String.mk (drop_min s.data start.toNat s.data.length le_rfl)
  · intro s start len h1 h2 h3
    simp only [substr, pySlice, normIdx]
    rw [if_pos h3, if_neg (by omega)]
    refine congrArg String.mk (drop_min _ start.toNat s.data.length ?_)
    rw [List.length_take]
    exact min_le_right _ _

/-- Witness for C9: the amended description evaluated at `hello`. -/
theorem C9_amended_witness : substr "hello" 1 none = "ello" :=
  (C9_amended.1 "hello" 1 (by decide)).trans (by decide)

/-- C7: a non-blank, non-comment line that does not split into exactly four
fields is skipped silently — the state (output, recommendations, category)
is unchanged — and processing of subsequent lines continues as if the line
were absent. -/
theorem C7_malformed_line_skipped
    (E : String → Option Value) (C : String → Value → Option Value)
    (vars : List (String × Value)) (mode : String) (debug : Bool) (st : St)
    (raw : String) (rest : List String)
    (h1 : (raw.data.dropWhile pySpace).isEmpty = false)
    (h2 : (raw.data.dropWhile pySpace).head? ≠ some '#')
    (h3 : ((splitBars [] raw.data).map String.mk).length ≠ 4) :
    processLine E C vars mode debug st raw = st
    ∧ runLines E C vars mode debug st (raw :: rest) = runLines E C vars mode debug st rest := by
  have hp : processLine E C vars mode debug st raw = st := by
    unfold processLine
    rw [if_neg (by simp [h1]), if_neg h2]
    simp only [h3, if_false, ite_false]
  refine ⟨hp, ?_⟩
  show runLines E C vars mode debug (processLine E C vars mode debug st raw) rest = _
  rw [hp]

/-- Witness for C7: a three-field line leaves the state unchanged and a
following well-formed rule line is still processed. -/
theorem C7_malformed_line_skipped_witness :
    processLine exprEvalFrag condEvalFrag [] "pretty" false ⟨[], [], ""⟩ "a ||| b ||| c\n"
        = ⟨[], [], ""⟩
    ∧ runLines exprEvalFrag condEvalFrag [] "pretty" false ⟨[], [], ""⟩
        ["a ||| b ||| c\n", "T ||| ||| 5 ||| r\n"]
      = runLines exprEvalFrag condEvalFrag [] "pretty" false ⟨[], [], ""⟩
        ["T ||| ||| 5 ||| r\n"] :=
  C7_malformed_line_skipped _ _ _ _ _ _ _ _ (by decide) (by decide) (by decide)

/-- C5: for a well-formed rule line (processed with debug off), a
recommendation pair is appended if and only if the stripped condition field
is non-empty and the compiled condition expression evaluates without error
to a truthy result against the derived value; an empty condition field or
an evaluation error leaves the recommendation list unchanged; the metric
line is printed in every case. -/
theorem C5_recommendation_iff
    (E : String → Option Value) (C : String → Value → Option Value)
    (vars : List (String × Value)) (mode : String) (st : St) (raw : String)
    (label comp expr output_text : String) (value : Value) (displayed : String)
    (h1 : (raw.data.dropWhile pySpace).isEmpty = false)
    (h2 : (raw.data.dropWhile pySpace).head? ≠ some '#')
    (hparts : (splitBars [] raw.data).map String.mk = [label, comp, expr, output_text])
    (hval : value = (E (substitute_expr_variables (pyStrip expr) vars)).getD
        (.vstr (substitute_expr_variables (pyStrip expr) vars)))
    (hdisp : displayed = if mode = "csv" then pyStrip label ++ "," ++ pyStr value
        else pyStrip label ++ ": " ++ pyStr (round2_if_numeric value (pyStrip expr))) :
    ((processLine E C vars mode false st raw).recs
        = st.recs ++ [(displayed, pyStrip output_text)]
      ↔ pyStrip (pyStrip comp) ≠ ""
        ∧ ∃ b, C (build_condition_expression (pyStrip (pyStrip comp)) "v") value = some b
            ∧ pyTruthy b = true)
    ∧ ((pyStrip (pyStrip comp) = ""
        ∨ C (build_condition_expression (pyStrip (pyStrip comp)) "v") value = none) →
        (processLine E C vars mode false st raw).recs = st.recs)
    ∧ (processLine E C vars mode false st raw).out = st.out ++ [displayed] := by
  have h4 : ((splitBars [] raw.data).map String.mk).length = 4 := by rw [hparts]; rfl
  rw [processLine_rule E C vars mode false st raw h1 h2 h4, hparts]
  simp only [List.getD_cons_zero, List.getD_cons_succ]
  obtain ⟨ho, hr, _⟩ := ruleStep_spec E C vars mode st
    (pyStrip label) (pyStrip comp) (pyStrip expr) (pyStrip output_text)
  rw [ho, hr, ← hval, ← hdisp]
  refine ⟨?_, ?_, rfl⟩
  · by_cases hc : pyStrip (pyStrip comp) = ""
    · simp [hc]
    · cases hC : C (build_condition_expression (pyStrip (pyStrip comp)) "v") value with
      | none => simp [hc, hC]
      | some b => cases hb : pyTruthy b <;> simp [hc, hC, hb]
  · intro h
    rcases h with hc | hC
    · simp [hc]
    · by_cases hc : pyStrip (pyStrip comp) = ""
      · simp [hc]
      · simp [hc, hC]

/-- Witness for C5: the csv scenario rule `Uptime too low` with condition
`< 60` and derived value 30 appends exactly one recommendation pair and
prints the metric line. -/
theorem C5_recommendation_iff_witness :
    ((processLine exprEvalFrag condEvalFrag [("Uptime", Value.vstr "30")] "csv" false
          ⟨[], [], ""⟩ "Uptime too low ||| < 60 ||| Uptime ||| Consider increasing uptime").recs
        = ([] : List (String × String)) ++ [("Uptime too low,30", "Consider increasing uptime")]
      ↔ pyStrip (pyStrip " < 60 ") ≠ ""
        ∧ ∃ b, condEvalFrag (build_condition_expression (pyStrip (pyStrip " < 60 ")) "v")
              (Value.vint 30) = some b
            ∧ pyTruthy b = true)
    ∧ ((pyStrip (pyStrip " < 60 ") = ""
        ∨ condEvalFrag (build_condition_expression (pyStrip (pyStrip " < 60 ")) "v")
            (Value.vint 30) = none) →
        (processLine exprEvalFrag condEvalFrag [("Uptime", Value.vstr "30")] "csv" false
          ⟨[], [], ""⟩ "Uptime too low ||| < 60 ||| Uptime ||| Consider increasing uptime").recs
          = ([] : List (String × String)))
    ∧ (processLine exprEvalFrag condEvalFrag [("Uptime", Value.vstr "30")] "csv" false
          ⟨[], [], ""⟩ "Uptime too low ||| < 60 ||| Uptime ||| Consider increasing uptime").out
        = ([] : List String) ++ ["Uptime too low,30"] :=
  C5_recommendation_iff exprEvalFrag condEvalFrag [("Uptime", Value.vstr "30")] "csv"
    ⟨[], [], ""⟩ "Uptime too low ||| < 60 ||| Uptime ||| Consider increasing uptime"
    "Uptime too low " " < 60 " " Uptime " " Consider increasing uptime"
    (Value.vint 30) "Uptime too low,30"
    (by decide) (by decide) (by decide) (by decide) (by decide)

/-- C6 counterexample: the fallback text for a failed derived-value
evaluation is not always displayed verbatim.  Python rejects `007` (leading
zeros in an integer literal are a syntax error), so the rule falls back to
the text `007` — but in pretty mode that fallback still passes through
`round2_if_numeric`, and the displayed line is `x: 7.0`, not `x: 007`. -/
theorem C6_counterexample :
    evaluate_and_print exprEvalFrag condEvalFrag ["x ||| ||| 007 ||| r"] [] "pretty" false false
      = ["x: 7.0"]
    ∧ evaluate_and_print exprEvalFrag condEvalFrag ["x ||| ||| 007 ||| r"] [] "pretty" false false
      ≠ ["x: 007"] := by decide

/-- C6 amended: when the derived-value expression cannot be evaluated, the
rule is not aborted: the post-substitution expression text itself becomes
the value, displayed verbatim in csv mode but still subject to display
rounding in pretty mode (so a numeric-looking fallback may be reformatted);
processing continues with the condition check and the subsequent lines. -/
theorem C6_amended
    (E : String → Option Value) (C : String → Value → Option Value)
    (vars : List (String × Value)) (mode : String) (st : St) (raw : String)
    (rest : List String) (label comp expr output_text parsed : String)
    (h1 : (raw.data.dropWhile pySpace).isEmpty = false)
    (h2 : (raw.data.dropWhile pySpace).head? ≠ some '#')
    (hparts : (splitBars [] raw.data).map String.mk = [label, comp, expr, output_text])
    (hparsed : parsed = substitute_expr_variables (pyStrip expr) vars)
    (hfail : E parsed = none) :
    (mode = "csv" → (processLine E C vars mode false st raw).out
        = st.out ++ [pyStrip label ++ "," ++ parsed])
    ∧ (mode ≠ "csv" → (processLine E C vars mode false st raw).out
        = st.out ++ [pyStrip label ++ ": "
            ++ pyStr (round2_if_numeric (.vstr parsed) (pyStrip expr))])
    ∧ runLines E C vars mode false st (raw :: rest)
        = runLines E C vars mode false (processLine E C vars mode false st raw) rest := by
  have h4 : ((splitBars [] raw.data).map String.mk).length = 4 := by rw [hparts]; rfl
  have hPL := processLine_rule E C vars mode false st raw h1 h2 h4
  rw [hparts] at hPL
  simp only [List.getD_cons_zero, List.getD_cons_succ] at hPL
  obtain ⟨ho, _, _⟩ := ruleStep_spec E C vars mode st
    (pyStrip label) (pyStrip comp) (pyStrip expr) (pyStrip output_text)
  refine ⟨fun hm => ?_, fun hm => ?_, runLines_cons E C vars mode false st raw rest⟩
  · rw [hPL, ho, ← hparsed, hfail]
    simp [hm, Option.getD, pyStr]
  · rw [hPL, ho, ← hparsed, hfail, if_neg hm]
    simp [Option.getD, pyStr]

/-- Witness for C6: the `007` rule in pretty mode falls back to the text
`007`, which display rounding then reformats. -/
theorem C6_amended_witness :
    (processLine exprEvalFrag condEvalFrag [] "pretty" false ⟨[], [], ""⟩
        "x ||| ||| 007 ||| r").out
      = ([] : List String) ++ [pyStrip "x " ++ ": "
          ++ pyStr (round2_if_numeric (.vstr "007") (pyStrip " 007 "))] :=
  (C6_amended exprEvalFrag condEvalFrag [] "pretty" ⟨[], [], ""⟩ "x ||| ||| 007 ||| r"
    [] "x " " " " 007 " " r" "007"
    (by decide) (by decide) (by decide) (by decide) (by decide)).2.1 (by decide)

/-- C1 counterexample: the pretty-mode scenario does not print
`Active Threads: 12` — the derived value is display-rounded to a float. -/
theorem C1_counterexample :
    evaluate_and_print exprEvalFrag condEvalFrag
        ["Active Threads ||| ||| Threads_connected ||| (none)"]
        [("Threads_connected", .vstr "12")] "pretty" false false
      ≠ ["Active Threads: 12"] := by decide

/-- C1 amended: the pretty-mode scenario produces exactly the metric line
`Active Threads: 12.0` (the derived value 12 passes through
`round2_if_numeric`, becoming the float rendered `12.0`). -/
theorem C1_amended_run :
    evaluate_and_print exprEvalFrag condEvalFrag
        ["Active Threads ||| ||| Threads_connected ||| (none)"]
        [("Threads_connected", .vstr "12")] "pretty" false false
      = ["Active Threads: 12.0"] := by decide

/-- C8: a category header emits a category-change output exactly when the
named category differs from the currently active one, and the active
category is updated at the same moment; a header naming the active category
leaves the state untouched, so two consecutive `# Category: Memory` headers
produce exactly one category-change output. -/
theorem C8_category_change :
    (∀ (E : String → Option Value) (C : String → Value → Option Value)
        (vars : List (String × Value)) (mode : String) (debug : Bool) (st : St)
        (raw : String) (n : List Char),
      catMatch raw.data = some n → hasTripleBar raw.data = false → String.mk n ≠ "" →
      processLine E C vars mode debug st raw
        = if String.mk n ≠ st.cat then
            { st with
              cat := String.mk n,
              out := st.out ++
                [if mode = "csv" then "Category," ++ String.mk n
                 else "\n" ++ String.mk n] }
          else st)
    ∧ evaluate_and_print exprEvalFrag condEvalFrag
        ["# Category: Memory\n", "# Category: Memory\n"] [] "pretty" false false
      = ["\nMemory"] :=
  ⟨fun E C vars mode debug st raw n hm hbar hne =>
    processLine_header E C vars mode debug st raw n hm hbar hne, by decide⟩

/-- Witness for C8: the first `Memory` header on an empty-category state
emits the category line and sets the active category. -/
theorem C8_category_change_witness :
    processLine exprEvalFrag condEvalFrag [] "pretty" false ⟨[], [], ""⟩ "# Category: Memory\n"
      = if String.mk "Memory".data ≠ (St.mk [] [] "").cat then
          { St.mk [] [] "" with
            cat := String.mk "Memory".data,
            out := (St.mk [] [] "").out ++
              [if "pretty" = "csv" then "Category," ++ String.mk "Memory".data
               else "\n" ++ String.mk "Memory".data] }
        else St.mk [] [] "" :=
  C8_category_change.1 exprEvalFrag condEvalFrag [] "pretty" false ⟨[], [], ""⟩
    "# Category: Memory\n" "Memory".data (by decide) (by decide) (by decide)

/-- C10: every line (no interior newline) that contains no rule delimiter
and matches the claimed pattern — optional whitespace, `#`, optional
whitespace, the word `Category` in any letter case, optional whitespace,
`:`, and a name that is non-empty after trimming surrounding whitespace —
is treated as a category header whose extracted name is that trimmed text,
and the name is compared by plain (case-sensitive) string equality against
the active category: the state changes exactly when they differ. -/
theorem C10_spec_header_detection
    (E : String → Option Value) (C : String → Value → Option Value)
    (vars : List (String × Value)) (mode : String) (debug : Bool) (st : St)
    (raw : String) (n : List Char)
    (hline : '\n' ∉ raw.data.dropLast)
    (hbar : hasTripleBar raw.data = false)
    (hm : specCatHeader raw.data = some n) :
    processLine E C vars mode debug st raw
      = if String.mk n ≠ st.cat then
          { st with
            cat := String.mk n,
            out := st.out ++
              [if mode = "csv" then "Category," ++ String.mk n
               else "\n" ++ String.mk n] }
        else st := by
  obtain ⟨r, hr, hg⟩ : ∃ r, catRest raw.data = some r
      ∧ (if trimChars r ≠ [] then some (trimChars r) else none) = some n := by
    simpa [specCatHeader, Option.bind_eq_some] using hm
  have hne : trimChars r ≠ [] := by
    by_cases h : trimChars r ≠ []
    · exact h
    · rw [if_neg h] at hg; exact absurd hg (by simp)
  rw [if_pos hne] at hg
  have hn : n = trimChars r := by injection hg with h; exact h.symm
  have hnl : '\n' ∉ r.dropLast := suffix_dropLast_not_mem (catRest_suffix hr) hline
  have hcm : catMatch raw.data = some n := by
    unfold catMatch
    rw [hr]
    simp [catGroup_of_trim hnl hne, hn]
  have hne' : String.mk n ≠ "" := by
    rw [hn]
    intro h
    apply hne
    have h2 := congrArg String.data h
    simpa using h2
  exact processLine_header E C vars mode debug st raw n hcm hbar hne'

/-- Witness for C10: a header in mixed case with scattered whitespace,
`(spaces)# CATEGORY :(tab)Memory(spaces)`, is detected and its name is the
trimmed `Memory`. -/
theorem C10_spec_header_detection_witness :
    processLine exprEvalFrag condEvalFrag [] "csv" false ⟨[], [], "Disk"⟩
        "  # CATEGORY :\tMemory  \n"
      = if String.mk "Memory".data ≠ (St.mk [] [] "Disk").cat then
          { St.mk [] [] "Disk" with
            cat := String.mk "Memory".data,
            out := (St.mk [] [] "Disk").out ++
              [if "csv" = "csv" then "Category," ++ String.mk "Memory".data
               else "\n" ++ String.mk "Memory".data] }
        else St.mk [] [] "Disk" :=
  C10_spec_header_detection exprEvalFrag condEvalFrag [] "csv" false ⟨[], [], "Disk"⟩
    "  # CATEGORY :\tMemory  \n" "Memory".data (by decide) (by decide) (by decide)

/-- C2 counterexample: the csv-mode scenario never prints a line
`Uptime too low,30.0` — csv mode prints the raw derived value `30`. -/
theorem C2_counterexample :
    "Uptime too low,30.0" ∉ evaluate_and_print exprEvalFrag condEvalFrag
        ["Uptime too low ||| < 60 ||| Uptime ||| Consider increasing uptime"]
        [("Uptime", .vstr "30")] "csv" false true := by decide

/-- C2 amended: the csv-mode scenario produces the metric line
`Uptime too low,30` (no display rounding in csv mode) and then, in the
recommendation section, `Uptime too low,30` and
`Recommendation,Consider increasing uptime`. -/
theorem C2_amended_run :
    evaluate_and_print exprEvalFrag condEvalFrag
        ["Uptime too low ||| < 60 ||| Uptime ||| Consider increasing uptime"]
        [("Uptime", .vstr "30")] "csv" false true
      = ["Uptime too low,30", "\n\nRECOMMENDATIONS:", "Uptime too low,30",
         "Recommendation,Consider increasing uptime"] := by decide
